import Mathlib

/-!
Verification of the `invariant-rs` crate: a family of seven assertion macros
(`invariant`, `invariant_eq`, `invariant_ne`, `invariant_gt`, `invariant_ge`,
`invariant_lt`, `invariant_le`) that check invariants with a panic in debug
builds and replace the check by a `core::hint::unreachable_unchecked` hint in
release builds.

The macros are shallowly embedded as follows. A macro invocation expands, per
`macro_rules`, into a block of code containing: evaluations of the operand
expressions, `#[cfg(debug_assertions)]` / `#[cfg(not(debug_assertions))]`
blocks (stripped before type checking in the non-matching build mode),
`if cfg!(debug_assertions) { .. }` blocks produced by the `debug_assert!`
family (kept and type-checked in both modes, executed only in debug),
runtime conditionals, panic calls, and the unreachable hint. The `Code` type
models exactly this shape and `exec` runs it, recording the outcome and the
ordered list of operand evaluations.

Operand values are abstracted by the results of the Rust comparison operators
at the given pair: for `PartialEq` operands the Boolean `l == r` (with `l != r`
its negation, per the documented `PartialEq` contract), and for `PartialOrd`
operands the value of `l.partial_cmp(r) : Option Ordering`, from which the
operators `<`, `<=`, `>`, `>=` are derived as in `core::cmp`.
-/

namespace InvariantRs

/-- Runtime outcome of one expanded macro invocation: normal completion with
unit value, a panic carrying its message, or undefined behavior from reaching
`core::hint::unreachable_unchecked`. -/
inductive Status where
  | unit
  | panicked (msg : String)
  | ub
deriving DecidableEq, Repr

/-- Shape of the code a macro invocation expands to.

`evalOp i` marks one evaluation of the i-th operand expression (0 = left or
the condition, 1 = right). `fmtArgsCheck` marks the site where the caller's
custom format arguments appear (hence where they are type-checked if the site
survives `cfg` stripping). `cfgIf w body` is a `#[cfg(debug_assertions)]`
block when `w = true` and a `#[cfg(not(debug_assertions))]` block when
`w = false`: the body is removed before type checking in the other mode.
`constIf body` is `if cfg!(debug_assertions) { body }`: the body is kept and
type-checked in both modes but executed only in debug. `condIf c body` is a
runtime `if` whose condition evaluates to `c` at the modelled input. -/
inductive Code where
  | skip
  | panicCall (msg : String)
  | unreachableCall
  | evalOp (i : Nat)
  | fmtArgsCheck
  | seq (a b : Code)
  | cfgIf (whenDebug : Bool) (body : Code)
  | constIf (body : Code)
  | condIf (c : Bool) (body : Code)
deriving DecidableEq, Repr

/-- Run expanded code in the given build mode (`debug = true` for a build with
`debug_assertions` enabled). Returns the outcome together with the list of
operand evaluations performed, in order; a panic or the unreachable hint
aborts the rest of the block. -/
def exec (debug : Bool) : Code → Status × List Nat
  | .skip => (.unit, [])
  | .panicCall msg => (.panicked msg, [])
  | .unreachableCall => (.ub, [])
  | .evalOp i => (.unit, [i])
  | .fmtArgsCheck => (.unit, [])
  | .seq a b =>
      match exec debug a with
      | (.unit, l) =>
          let r := exec debug b
          (r.1, l ++ r.2)
      | r => r
  | .cfgIf w body => if w = debug then exec debug body else (.unit, [])
  | .constIf body => if debug then exec debug body else (.unit, [])
  | .condIf c body => if c then exec debug body else (.unit, [])

/-- Does the custom-format-argument site survive into the code that is
type-checked in the given build mode? `#[cfg]` blocks for the other mode are
stripped before type checking; the body of `if cfg!(debug_assertions)` and of
runtime conditionals is always type-checked. -/
def hasFmtCheck (debug : Bool) : Code → Bool
  | .fmtArgsCheck => true
  | .seq a b => hasFmtCheck debug a || hasFmtCheck debug b
  | .cfgIf w body => if w = debug then hasFmtCheck debug body else false
  | .constIf body => hasFmtCheck debug body
  | .condIf _ body => hasFmtCheck debug body
  | _ => false

/-- Is there a panic call on a path that can execute in the given build mode?
A body stripped by `#[cfg]`, or guarded by `if cfg!(debug_assertions)` in a
release build, cannot execute; a runtime conditional is counted as reachable
regardless of the modelled input's condition value. -/
def hasReachablePanic (debug : Bool) : Code → Bool
  | .panicCall _ => true
  | .seq a b => hasReachablePanic debug a || hasReachablePanic debug b
  | .cfgIf w body => if w = debug then hasReachablePanic debug body else false
  | .constIf body => debug && hasReachablePanic debug body
  | .condIf _ body => hasReachablePanic debug body
  | _ => false

/-- The outcome is a panic. -/
def isPanic : Status → Bool
  | .panicked _ => true
  | _ => false

/-- The outcome is undefined behavior (the unreachable hint was reached). -/
def isUB : Status → Bool
  | .ub => true
  | _ => false

/-- Abstraction of one concrete operand pair (or condition) supplied to a
macro call site: the values of the Rust comparison operators at that pair,
plus the formatted text used in diagnostic messages. `cond` is the value of
the boolean condition for `invariant!`; `eqv` is `left == right` for the
equality macros; `pc` is `left.partial_cmp(right)` for the ordering macros;
`leftS`/`rightS` are the operands' formatted representations and `condText`
the stringified condition expression. -/
structure Operands where
  cond : Bool
  eqv : Bool
  pc : Option Ordering
  leftS : String
  rightS : String
  condText : String
deriving DecidableEq, Repr

/-- Rust `left < right` via `PartialOrd`: `partial_cmp` returned `Less`. -/
def rust_lt (pc : Option Ordering) : Bool := pc = some Ordering.lt

/-- Rust `left <= right` via `PartialOrd`: `partial_cmp` returned `Less` or
`Equal`. -/
def rust_le (pc : Option Ordering) : Bool :=
  pc = some Ordering.lt || pc = some Ordering.eq

/-- Rust `left > right` via `PartialOrd`: `partial_cmp` returned `Greater`. -/
def rust_gt (pc : Option Ordering) : Bool := pc = some Ordering.gt

/-- Rust `left >= right` via `PartialOrd`: `partial_cmp` returned `Greater`
or `Equal`. -/
def rust_ge (pc : Option Ordering) : Bool :=
  pc = some Ordering.gt || pc = some Ordering.eq

/-- Default panic message of `core::assert!` (hence of `debug_assert!`) for a
condition with the given source text. -/
def assertFailedMsg (condText : String) : String :=
  "assertion failed: " ++ condText

/-- Panic message of `core::assert_eq!` / `core::assert_ne!` (via
`core::panicking::assert_failed`): the default diagnostic names the failed
comparison and shows both operand values, and a caller-supplied message is
appended to it rather than replacing it. -/
def assertEqFailedMsg (op leftS rightS : String) : Option String → String
  | none =>
      "assertion `left " ++ op ++ " right` failed\n  left: "
        ++ leftS ++ "\n right: " ++ rightS
  | some m =>
      "assertion `left " ++ op ++ " right` failed: " ++ m ++ "\n  left: "
        ++ leftS ++ "\n right: " ++ rightS

/-- Default panic message of the ordering macros, from the format string
`"assertion failed: \x7b(left <op> right)\x7d ..."` in their source (with the
operand values substituted for the two `\x7b\x7d` placeholders). -/
def orderingFailedMsg (op leftS rightS : String) : String :=
  "assertion failed: `(left " ++ op ++ " right)`\n  left: `" ++ leftS
    ++ "`,\n right: `" ++ rightS ++ "`"

/-- Expansion of `invariant!` (src/invariant_macro.rs, both arms).
`debug_assert!($cond[, args])` expands to
`if cfg!(debug_assertions) { assert!($cond[, args]) }`, where `assert!`
evaluates the condition and panics with the default message (or with exactly
the custom formatted message) when it is false; the
`#[cfg(not(debug_assertions))]` block evaluates `!($cond)` and hints
unreachable when it holds. -/
def invariant (custom : Option String) (ops : Operands) : Code :=
  match custom with
  | none =>
      .seq
        (.constIf (.seq (.evalOp 0)
          (.condIf (!ops.cond) (.panicCall (assertFailedMsg ops.condText)))))
        (.cfgIf false (.seq (.evalOp 0)
          (.condIf (!ops.cond) .unreachableCall)))
  | some msg =>
      .seq
        (.constIf (.seq (.evalOp 0)
          (.condIf (!ops.cond) (.seq .fmtArgsCheck (.panicCall msg)))))
        (.cfgIf false (.seq (.evalOp 0)
          (.condIf (!ops.cond) .unreachableCall)))

/-- Expansion of `invariant_eq!` (src/invariant_eq_macro.rs, both arms).
`debug_assert_eq!` expands to `if cfg!(debug_assertions) { assert_eq!(..) }`;
`assert_eq!` binds references to both operands (one evaluation each), panics
via `assert_failed` when `left == right` is false, formatting the already
bound values. The `#[cfg(not(debug_assertions))]` block evaluates
`$left != $right` (the negation of `==` per the `PartialEq` contract) and
hints unreachable when it holds. -/
def invariant_eq (custom : Option String) (ops : Operands) : Code :=
  .seq
    (.constIf (.seq (.evalOp 0) (.seq (.evalOp 1)
      (.condIf (!ops.eqv)
        (match custom with
         | none =>
             .panicCall (assertEqFailedMsg "==" ops.leftS ops.rightS none)
         | some msg =>
             .seq .fmtArgsCheck
               (.panicCall
                 (assertEqFailedMsg "==" ops.leftS ops.rightS (some msg))))))))
    (.cfgIf false (.seq (.evalOp 0) (.seq (.evalOp 1)
      (.condIf (!ops.eqv) .unreachableCall))))

/-- Expansion of `invariant_ne!` (src/invariant_ne_macro.rs, both arms).
As `invariant_eq` with the comparison reversed: `debug_assert_ne!` panics
when `left != right` is false (i.e. when `left == right`), and the release
block evaluates `$left == $right` and hints unreachable when it holds. -/
def invariant_ne (custom : Option String) (ops : Operands) : Code :=
  .seq
    (.constIf (.seq (.evalOp 0) (.seq (.evalOp 1)
      (.condIf ops.eqv
        (match custom with
         | none =>
             .panicCall (assertEqFailedMsg "!=" ops.leftS ops.rightS none)
         | some msg =>
             .seq .fmtArgsCheck
               (.panicCall
                 (assertEqFailedMsg "!=" ops.leftS ops.rightS (some msg))))))))
    (.cfgIf false (.seq (.evalOp 0) (.seq (.evalOp 1)
      (.condIf ops.eqv .unreachableCall))))

/-- Expansion of `invariant_gt!` (src/invariant_gt_macro.rs, both arms).
The `#[cfg(debug_assertions)]` block evaluates `$left <= $right` and, when it
holds, panics: in the default arm the format string re-evaluates `$left` and
`$right` to build the message; in the custom arm `panic!($($arg)+)` panics
with exactly the custom message. The `#[cfg(not(debug_assertions))]` block
evaluates `$left <= $right` and hints unreachable when it holds. -/
def invariant_gt (custom : Option String) (ops : Operands) : Code :=
  match custom with
  | none =>
      .seq
        (.cfgIf true (.seq (.evalOp 0) (.seq (.evalOp 1)
          (.condIf (rust_le ops.pc)
            (.seq (.evalOp 0) (.seq (.evalOp 1)
              (.panicCall (orderingFailedMsg ">" ops.leftS ops.rightS))))))))
        (.cfgIf false (.seq (.evalOp 0) (.seq (.evalOp 1)
          (.condIf (rust_le ops.pc) .unreachableCall))))
  | some msg =>
      .seq
        (.cfgIf true (.seq (.evalOp 0) (.seq (.evalOp 1)
          (.condIf (rust_le ops.pc)
            (.seq .fmtArgsCheck (.panicCall msg))))))
        (.cfgIf false (.seq (.evalOp 0) (.seq (.evalOp 1)
          (.condIf (rust_le ops.pc) .unreachableCall))))

/-- Expansion of `invariant_ge!` (src/invariant_ge_macro.rs, both arms).
As `invariant_gt` with guard `$left < $right` in both blocks. -/
def invariant_ge (custom : Option String) (ops : Operands) : Code :=
  match custom with
  | none =>
      .seq
        (.cfgIf true (.seq (.evalOp 0) (.seq (.evalOp 1)
          (.condIf (rust_lt ops.pc)
            (.seq (.evalOp 0) (.seq (.evalOp 1)
              (.panicCall (orderingFailedMsg ">=" ops.leftS ops.rightS))))))))
        (.cfgIf false (.seq (.evalOp 0) (.seq (.evalOp 1)
          (.condIf (rust_lt ops.pc) .unreachableCall))))
  | some msg =>
      .seq
        (.cfgIf true (.seq (.evalOp 0) (.seq (.evalOp 1)
          (.condIf (rust_lt ops.pc)
            (.seq .fmtArgsCheck (.panicCall msg))))))
        (.cfgIf false (.seq (.evalOp 0) (.seq (.evalOp 1)
          (.condIf (rust_lt ops.pc) .unreachableCall))))

/-- Expansion of `invariant_le!` (src/invariant_le_macro.rs, both arms).
As `invariant_gt` with guard `$left > $right` in both blocks. -/
def invariant_le (custom : Option String) (ops : Operands) : Code :=
  match custom with
  | none =>
      .seq
        (.cfgIf true (.seq (.evalOp 0) (.seq (.evalOp 1)
          (.condIf (rust_gt ops.pc)
            (.seq (.evalOp 0) (.seq (.evalOp 1)
              (.panicCall (orderingFailedMsg "<=" ops.leftS ops.rightS))))))))
        (.cfgIf false (.seq (.evalOp 0) (.seq (.evalOp 1)
          (.condIf (rust_gt ops.pc) .unreachableCall))))
  | some msg =>
      .seq
        (.cfgIf true (.seq (.evalOp 0) (.seq (.evalOp 1)
          (.condIf (rust_gt ops.pc)
            (.seq .fmtArgsCheck (.panicCall msg))))))
        (.cfgIf false (.seq (.evalOp 0) (.seq (.evalOp 1)
          (.condIf (rust_gt ops.pc) .unreachableCall))))

/-- Modelled from the spec: the module `invariant_lt_macro` is declared in
src/lib.rs and `invariant_lt` is re-exported by the prelude, but the file
`invariant_lt_macro.rs` is not present under src/. The definition follows the
spec's shared and ordering-invariant contracts: in debug builds the expansion
evaluates each operand exactly once and panics, with the standard ordering
message over the operand values (default arm) or with exactly the custom
message (custom arm), when `left < right` does not hold; the custom format
arguments are placed so that they still type-check in release builds even
though they are never evaluated there (the debug check sits in a block kept
in both build modes but executed only in debug); in release builds the
expansion evaluates each operand once and hints unreachable when the
relation does not hold. -/
def invariant_lt (custom : Option String) (ops : Operands) : Code :=
  match custom with
  | none =>
      .seq
        (.constIf (.seq (.evalOp 0) (.seq (.evalOp 1)
          (.condIf (!rust_lt ops.pc)
            (.panicCall (orderingFailedMsg "<" ops.leftS ops.rightS))))))
        (.cfgIf false (.seq (.evalOp 0) (.seq (.evalOp 1)
          (.condIf (!rust_lt ops.pc) .unreachableCall))))
  | some msg =>
      .seq
        (.constIf (.seq (.evalOp 0) (.seq (.evalOp 1)
          (.condIf (!rust_lt ops.pc)
            (.seq .fmtArgsCheck (.panicCall msg))))))
        (.cfgIf false (.seq (.evalOp 0) (.seq (.evalOp 1)
          (.condIf (!rust_lt ops.pc) .unreachableCall))))

/-- Names of the seven invariant macros of the crate. -/
inductive MacroId where
  | inv
  | inv_eq
  | inv_ne
  | inv_gt
  | inv_ge
  | inv_lt
  | inv_le
deriving DecidableEq, Repr

/-- Dispatch from a macro name to its expansion. -/
def expand : MacroId → Option String → Operands → Code
  | .inv => invariant
  | .inv_eq => invariant_eq
  | .inv_ne => invariant_ne
  | .inv_gt => invariant_gt
  | .inv_ge => invariant_ge
  | .inv_lt => invariant_lt
  | .inv_le => invariant_le

/-- The invariant each macro asserts, at the abstracted operand pair: the
condition itself, `left == right`, `left != right`, or the stated ordering
relation. -/
def holds : MacroId → Operands → Bool
  | .inv, o => o.cond
  | .inv_eq, o => o.eqv
  | .inv_ne, o => !o.eqv
  | .inv_gt, o => rust_gt o.pc
  | .inv_ge, o => rust_ge o.pc
  | .inv_lt, o => rust_lt o.pc
  | .inv_le, o => rust_le o.pc

/-- The macros re-exported by `invariant_rs::prelude` (src/lib.rs, the
`pub use` lines of `pub mod prelude`). -/
def prelude_exports : List MacroId :=
  [.inv, .inv_eq, .inv_ge, .inv_gt, .inv_le, .inv_lt, .inv_ne]



/-- Whenever the asserted invariant holds at the call site, the expansion of
any of the macros completes normally with unit in either build mode. Shared
helper for several results below. -/
lemma exec_unit_of_holds (m : MacroId) (custom : Option String)
    (ops : Operands) (debug : Bool) (h : holds m ops = true) :
    (exec debug (expand m custom ops)).1 = Status.unit := by
  rcases ops with ⟨c, e, pc, ls, rs, ct⟩
  rcases pc with _ | o
  · cases m <;> cases custom <;> cases debug <;>
      simp_all [holds, expand, invariant, invariant_eq, invariant_ne,
        invariant_gt, invariant_ge, invariant_lt, invariant_le, exec,
        rust_lt, rust_le, rust_gt, rust_ge]
  · cases o <;> cases m <;> cases custom <;> cases debug <;>
      simp_all [holds, expand, invariant, invariant_eq, invariant_ne,
        invariant_gt, invariant_ge, invariant_lt, invariant_le, exec,
        rust_lt, rust_le, rust_gt, rust_ge]

/-- Code with no statically reachable panic call cannot produce a panic when
run: the static reachability check of `hasReachablePanic` is sound for the
runtime semantics. -/
lemma isPanic_exec_eq_false (debug : Bool) (c : Code)
    (h : hasReachablePanic debug c = false) :
    isPanic (exec debug c).1 = false := by
  induction c with
  | skip => simp [exec, isPanic]
  | panicCall msg => simp [hasReachablePanic] at h
  | unreachableCall => simp [exec, isPanic]
  | evalOp i => simp [exec, isPanic]
  | fmtArgsCheck => simp [exec, isPanic]
  | seq a b iha ihb =>
      simp only [hasReachablePanic, Bool.or_eq_false_iff] at h
      have ha2 := iha h.1
      have hb2 := ihb h.2
      rcases hea : exec debug a with ⟨sa, la⟩
      rw [hea] at ha2
      cases sa with
      | unit => simp [exec, hea, hb2]
      | panicked m => simp [isPanic] at ha2
      | ub => simp [exec, hea, isPanic]
  | cfgIf w body ih =>
      by_cases hw : w = debug
      · rw [hasReachablePanic, if_pos hw] at h
        simp [exec, hw, ih h]
      · simp [exec, hw, isPanic]
  | constIf body ih =>
      cases debug with
      | false => simp [exec, isPanic]
      | true =>
          simp only [hasReachablePanic, Bool.true_and] at h
          simp [exec, ih h]
  | condIf cc body ih =>
      simp only [hasReachablePanic] at h
      cases cc with
      | false => simp [exec, isPanic]
      | true => simp [exec, ih h]


/-- C1: for every condition or operand pair for which the asserted invariant
holds, invoking any of the seven invariant macros, in either call form and
either build mode, never panics, never reaches the unreachable hint, and
evaluates to unit, leaving the surrounding computation unchanged. -/
theorem C1_macro_unit_when_invariant_holds (m : MacroId)
    (custom : Option String) (ops : Operands) (debug : Bool)
    (h : holds m ops = true) :
    (exec debug (expand m custom ops)).1 = Status.unit :=
  exec_unit_of_holds m custom ops debug h

/-- C1 witness: invariant_gt with operands comparing as Greater, debug mode,
default message: the invocation evaluates to unit. -/
theorem C1_witness :
    holds MacroId.inv_gt ⟨true, true, some Ordering.gt, "2", "1", "c"⟩ = true
    ∧ (exec true (expand MacroId.inv_gt none
        ⟨true, true, some Ordering.gt, "2", "1", "c"⟩)).1 = Status.unit :=
  ⟨by decide,
   C1_macro_unit_when_invariant_holds MacroId.inv_gt none
     ⟨true, true, some Ordering.gt, "2", "1", "c"⟩ true (by decide)⟩

/-- C2: in release builds no macro expansion contains a reachable panic path
(so no invocation can panic), and when the invariant holds the invocation
completes with unit, so the unsafe unreachable-hint branch is not reached. -/
theorem C2_release_no_panic_path (m : MacroId) (custom : Option String)
    (ops : Operands) :
    hasReachablePanic false (expand m custom ops) = false
    ∧ isPanic (exec false (expand m custom ops)).1 = false
    ∧ (holds m ops = true →
        (exec false (expand m custom ops)).1 = Status.unit) := by
  have hs : hasReachablePanic false (expand m custom ops) = false := by
    cases m <;> cases custom <;>
      simp [expand, invariant, invariant_eq, invariant_ne, invariant_gt,
        invariant_ge, invariant_lt, invariant_le, hasReachablePanic]
  exact ⟨hs, isPanic_exec_eq_false false _ hs,
    fun h => exec_unit_of_holds m custom ops false h⟩

/-- C2 witness: invariant with a true condition in release mode: no reachable
panic path, no panic, and the invocation evaluates to unit. -/
theorem C2_witness :
    holds MacroId.inv ⟨true, true, none, "1", "2", "c"⟩ = true
    ∧ (exec false (expand MacroId.inv none
        ⟨true, true, none, "1", "2", "c"⟩)).1 = Status.unit :=
  ⟨by decide,
   (C2_release_no_panic_path MacroId.inv none
     ⟨true, true, none, "1", "2", "c"⟩).2.2 (by decide)⟩

/-- C3: in debug builds, in either call form, invariant! panics exactly when
its condition is false, invariant_eq! panics exactly when left == right is
false, and invariant_ne! panics exactly when left == right is true; in each
case the outcome is a panic carrying a diagnostic message. -/
theorem C3_debug_panic_iff (custom : Option String) (ops : Operands) :
    isPanic (exec true (expand MacroId.inv custom ops)).1 = !ops.cond
    ∧ isPanic (exec true (expand MacroId.inv_eq custom ops)).1 = !ops.eqv
    ∧ isPanic (exec true (expand MacroId.inv_ne custom ops)).1 = ops.eqv := by
  rcases ops with ⟨c, e, pc, ls, rs, ct⟩
  cases custom <;> cases c <;> cases e <;>
    simp [expand, invariant, invariant_eq, invariant_ne, exec, isPanic]

/-- C4: in debug builds, at every comparable operand pair (partial_cmp
returns some ordering), each ordering macro panics exactly when its stated
relation, computed by the operand type's native ordering, does not hold. -/
theorem C4_ordering_debug_panic_iff (custom : Option String) (ops : Operands)
    (h : ops.pc.isSome = true) :
    isPanic (exec true (expand MacroId.inv_gt custom ops)).1 = !rust_gt ops.pc
    ∧ isPanic (exec true (expand MacroId.inv_ge custom ops)).1 = !rust_ge ops.pc
    ∧ isPanic (exec true (expand MacroId.inv_le custom ops)).1 = !rust_le ops.pc := by
  rcases ops with ⟨c, e, pc, ls, rs, ct⟩
  rcases pc with _ | o
  · simp at h
  · cases o <;> cases custom <;>
      simp [expand, invariant_gt, invariant_ge, invariant_le, exec, isPanic,
        rust_lt, rust_le, rust_gt, rust_ge]

/-- C4 witness: invariant_gt at a pair comparing as Less (a comparable pair
violating the relation) panics in debug mode. -/
theorem C4_witness :
    (some Ordering.lt : Option Ordering).isSome = true
    ∧ isPanic (exec true (expand MacroId.inv_gt none
        ⟨true, true, some Ordering.lt, "1", "2", "c"⟩)).1
      = !rust_gt (some Ordering.lt) :=
  ⟨rfl,
   (C4_ordering_debug_panic_iff none
     ⟨true, true, some Ordering.lt, "1", "2", "c"⟩ rfl).1⟩

/-- C5: the prelude re-exports exactly the seven invariant macros, all
distinct, and the less-than macro (modelled from the spec, its source file
being absent from the crate sources) panics in debug mode exactly when
left < right does not hold and reaches the unreachable hint in release mode
exactly when left < right does not hold. -/
theorem C5_prelude_seven_and_lt (custom : Option String) (ops : Operands) :
    prelude_exports.length = 7
    ∧ MacroId.inv ∈ prelude_exports
    ∧ MacroId.inv_eq ∈ prelude_exports
    ∧ MacroId.inv_ne ∈ prelude_exports
    ∧ MacroId.inv_gt ∈ prelude_exports
    ∧ MacroId.inv_ge ∈ prelude_exports
    ∧ MacroId.inv_lt ∈ prelude_exports
    ∧ MacroId.inv_le ∈ prelude_exports
    ∧ prelude_exports.Nodup
    ∧ isPanic (exec true (expand MacroId.inv_lt custom ops)).1 = !rust_lt ops.pc
    ∧ isUB (exec false (expand MacroId.inv_lt custom ops)).1 = !rust_lt ops.pc := by
  refine ⟨by decide, by decide, by decide, by decide, by decide, by decide,
    by decide, by decide, by decide, ?_, ?_⟩ <;>
  · rcases ops with ⟨c, e, pc, ls, rs, ct⟩
    rcases pc with _ | o <;> [skip; cases o] <;> cases custom <;>
      simp [expand, invariant_lt, exec, isPanic, isUB, rust_lt]

/-- C6 counterexample: in debug mode, invariant_gt at a violating pair with
the default message evaluates the left operand twice, not exactly once. -/
theorem C6_counterexample :
    ¬ ((exec true (expand MacroId.inv_gt none
        ⟨true, true, some Ordering.lt, "1", "2", "c"⟩)).2.count 0 = 1) := by
  decide

/-- C6 amended: for every two-operand invariant macro, in each build mode and
call form, one invocation whose invariant holds evaluates each operand
expression exactly once (the evaluation trace is exactly left then right);
the exactly-once guarantee does not extend to the debug failure path of the
default-message ordering macros, which evaluate the operands again to format
the panic message. -/
theorem C6_amended_operands_once_when_holds (m : MacroId)
    (custom : Option String) (ops : Operands) (debug : Bool)
    (hm : m ≠ MacroId.inv) (h : holds m ops = true) :
    (exec debug (expand m custom ops)).2 = [0, 1] := by
  rcases ops with ⟨c, e, pc, ls, rs, ct⟩
  rcases pc with _ | o
  · cases m <;> cases custom <;> cases debug <;>
      simp_all [holds, expand, invariant, invariant_eq, invariant_ne,
        invariant_gt, invariant_ge, invariant_lt, invariant_le, exec,
        rust_lt, rust_le, rust_gt, rust_ge]
  · cases o <;> cases m <;> cases custom <;> cases debug <;>
      simp_all [holds, expand, invariant, invariant_eq, invariant_ne,
        invariant_gt, invariant_ge, invariant_lt, invariant_le, exec,
        rust_lt, rust_le, rust_gt, rust_ge]

/-- C6 witness: invariant_eq at an equal pair in debug mode evaluates each
operand exactly once. -/
theorem C6_witness :
    MacroId.inv_eq ≠ MacroId.inv
    ∧ holds MacroId.inv_eq ⟨true, true, none, "1", "1", "c"⟩ = true
    ∧ (exec true (expand MacroId.inv_eq none
        ⟨true, true, none, "1", "1", "c"⟩)).2 = [0, 1] :=
  ⟨by decide, by decide,
   C6_amended_operands_once_when_holds MacroId.inv_eq none
     ⟨true, true, none, "1", "1", "c"⟩ true (by decide) (by decide)⟩

/-- C7 counterexample: for invariant_gt in the custom-message form, the
custom format arguments do not survive into the release-mode type-checked
code: cfg stripping removes the whole debug block, format arguments
included. -/
theorem C7_counterexample :
    ¬ (hasFmtCheck false (expand MacroId.inv_gt (some "msg")
        ⟨true, true, some Ordering.gt, "2", "1", "c"⟩) = true) := by
  decide

/-- C7 amended: custom format arguments are type-checked in release builds
for invariant!, invariant_eq! and invariant_ne! (which delegate to the
debug_assert! family, whose cfg!-guarded block is kept in both modes) and
for the spec-modelled invariant_lt! (whose contract requires it), and in
debug builds for all seven macros; but for the ordering macros
invariant_gt!, invariant_ge! and invariant_le! the custom format arguments
are removed from release compilation by cfg stripping and are not
type-checked there. -/
theorem C7_amended_fmt_args_typecheck (msg : String) (ops : Operands) :
    hasFmtCheck false (expand MacroId.inv (some msg) ops) = true
    ∧ hasFmtCheck false (expand MacroId.inv_eq (some msg) ops) = true
    ∧ hasFmtCheck false (expand MacroId.inv_ne (some msg) ops) = true
    ∧ hasFmtCheck false (expand MacroId.inv_lt (some msg) ops) = true
    ∧ (∀ m : MacroId, hasFmtCheck true (expand m (some msg) ops) = true)
    ∧ hasFmtCheck false (expand MacroId.inv_gt (some msg) ops) = false
    ∧ hasFmtCheck false (expand MacroId.inv_ge (some msg) ops) = false
    ∧ hasFmtCheck false (expand MacroId.inv_le (some msg) ops) = false := by
  refine ⟨?_, ?_, ?_, ?_, fun m => ?_, ?_, ?_, ?_⟩ <;>
    first
    | (cases m <;>
        simp [expand, invariant, invariant_eq, invariant_ne, invariant_gt,
          invariant_ge, invariant_lt, invariant_le, hasFmtCheck])
    | simp [expand, invariant, invariant_eq, invariant_ne, invariant_gt,
        invariant_ge, invariant_lt, invariant_le, hasFmtCheck]

/-- C8 counterexample: invariant_eq in debug mode with custom message "boom"
at an unequal pair panics, but with the assert_eq diagnostic carrying "boom"
appended — not with exactly the message "boom". -/
theorem C8_counterexample :
    isPanic (exec true (expand MacroId.inv_eq (some "boom")
        ⟨true, false, some Ordering.lt, "1", "2", "c"⟩)).1 = true
    ∧ (exec true (expand MacroId.inv_eq (some "boom")
        ⟨true, false, some Ordering.lt, "1", "2", "c"⟩)).1
      ≠ Status.panicked "boom" := by
  constructor
  · decide
  · decide

/-- C8 amended: in debug builds, with a custom message and a violated
invariant, invariant!, invariant_gt!, invariant_ge!, invariant_lt! and
invariant_le! panic with exactly the custom formatted message; invariant_eq!
and invariant_ne! panic with the assert_eq!/assert_ne! diagnostic in which
the custom message is appended to the default text and operand values rather
than replacing them. -/
theorem C8_amended_custom_message (msg : String) (ops : Operands) :
    (ops.cond = false →
      (exec true (expand MacroId.inv (some msg) ops)).1 = Status.panicked msg)
    ∧ (rust_le ops.pc = true →
      (exec true (expand MacroId.inv_gt (some msg) ops)).1 = Status.panicked msg)
    ∧ (rust_lt ops.pc = true →
      (exec true (expand MacroId.inv_ge (some msg) ops)).1 = Status.panicked msg)
    ∧ (rust_gt ops.pc = true →
      (exec true (expand MacroId.inv_le (some msg) ops)).1 = Status.panicked msg)
    ∧ (rust_lt ops.pc = false →
      (exec true (expand MacroId.inv_lt (some msg) ops)).1 = Status.panicked msg)
    ∧ (ops.eqv = false →
      (exec true (expand MacroId.inv_eq (some msg) ops)).1
        = Status.panicked (assertEqFailedMsg "==" ops.leftS ops.rightS (some msg)))
    ∧ (ops.eqv = true →
      (exec true (expand MacroId.inv_ne (some msg) ops)).1
        = Status.panicked (assertEqFailedMsg "!=" ops.leftS ops.rightS (some msg))) := by
  rcases ops with ⟨c, e, pc, ls, rs, ct⟩
  refine ⟨?_, ?_, ?_, ?_, ?_, ?_, ?_⟩ <;> intro h <;>
    simp_all [expand, invariant, invariant_eq, invariant_ne, invariant_gt,
      invariant_ge, invariant_lt, invariant_le, exec]

/-- C8 witness: invariant_gt at a pair comparing as Less, custom message "m",
debug mode: the panic message is exactly "m". -/
theorem C8_witness :
    rust_le (some Ordering.lt) = true
    ∧ (exec true (expand MacroId.inv_gt (some "m")
        ⟨true, true, some Ordering.lt, "1", "2", "c"⟩)).1 = Status.panicked "m" :=
  ⟨by decide,
   (C8_amended_custom_message "m"
     ⟨true, true, some Ordering.lt, "1", "2", "c"⟩).2.1 (by decide)⟩

/-- C9: for every macro, call form and operand pair, the debug expansion
panics exactly on the inputs on which the release expansion reaches the
unreachable hint: both build-mode branches test the same violation
predicate. -/
theorem C9_debug_release_same_violation (m : MacroId) (custom : Option String)
    (ops : Operands) :
    isPanic (exec true (expand m custom ops)).1
      = isUB (exec false (expand m custom ops)).1 := by
  rcases ops with ⟨c, e, pc, ls, rs, ct⟩
  rcases pc with _ | o
  · cases m <;> cases custom <;> cases c <;> cases e <;>
      simp [expand, invariant, invariant_eq, invariant_ne, invariant_gt,
        invariant_ge, invariant_lt, invariant_le, exec, isPanic, isUB,
        rust_lt, rust_le, rust_gt, rust_ge]
  · cases o <;> cases m <;> cases custom <;> cases c <;> cases e <;>
      simp [expand, invariant, invariant_eq, invariant_ne, invariant_gt,
        invariant_ge, invariant_lt, invariant_le, exec, isPanic, isUB,
        rust_lt, rust_le, rust_gt, rust_ge]

/-- C10: in debug builds, a default-message ordering macro invoked at a
comparable operand pair that violates its relation evaluates each operand a
second time (trace left, right, left, right) to format the message, and then
panics. -/
theorem C10_double_eval_on_failure (ops : Operands)
    (hc : ops.pc.isSome = true) :
    (rust_gt ops.pc = false →
      (exec true (expand MacroId.inv_gt none ops)).2 = [0, 1, 0, 1]
      ∧ isPanic (exec true (expand MacroId.inv_gt none ops)).1 = true)
    ∧ (rust_ge ops.pc = false →
      (exec true (expand MacroId.inv_ge none ops)).2 = [0, 1, 0, 1]
      ∧ isPanic (exec true (expand MacroId.inv_ge none ops)).1 = true)
    ∧ (rust_le ops.pc = false →
      (exec true (expand MacroId.inv_le none ops)).2 = [0, 1, 0, 1]
      ∧ isPanic (exec true (expand MacroId.inv_le none ops)).1 = true) := by
  rcases ops with ⟨c, e, pc, ls, rs, ct⟩
  rcases pc with _ | o
  · simp at hc
  · cases o <;>
      refine ⟨fun h => ?_, fun h => ?_, fun h => ?_⟩ <;>
        simp_all [expand, invariant_gt, invariant_ge, invariant_le, exec,
          isPanic, rust_lt, rust_le, rust_gt, rust_ge]

/-- C10 witness: invariant_gt at a pair comparing as Less, default message,
debug mode: both operands are evaluated twice and the call panics. -/
theorem C10_witness :
    (some Ordering.lt : Option Ordering).isSome = true
    ∧ rust_gt (some Ordering.lt) = false
    ∧ (exec true (expand MacroId.inv_gt none
        ⟨true, true, some Ordering.lt, "1", "2", "c"⟩)).2 = [0, 1, 0, 1] :=
  ⟨rfl, by decide,
   ((C10_double_eval_on_failure
     ⟨true, true, some Ordering.lt, "1", "2", "c"⟩ rfl).1 (by decide)).1⟩

end InvariantRs
